import Mathlib

/-!
# Verification of the cartog tile-grid core (src/grid.go)

A shallow embedding of the coordinate model and tile-grid state machine of
`src/grid.go` (package `main` of the cartog repository), together with proofs
of the specification's claims about it.

Modelling conventions:
* Go `float32` values are modelled as exact rationals (`ℚ`).  The divisions
  and multiplications by 2 that appear in `Coord.Add` are exact in binary
  floating point as well, so the rational model is faithful for the
  scaling/clamping arithmetic the claims are about.
* Go `uint32` size parameters are modelled as `ℕ` (they are unsigned in the
  source); `uint32(f)` conversions of already-clamped non-negative floats are
  modelled as truncation toward zero (`truncQ`) into `ℤ`, which makes
  "the index is never negative" a statable property.
* The mutable grid (`sync.Map` cache and loading set, the `TilesToLoad`
  channel, the `TilesInFlight` channel of cancellation functions) is modelled
  as an explicit record: `loading` is a finite set of keys, `cache` a partial
  map, `TilesToLoad` the queue of load requests sitting unconsumed in the
  channel, `TilesInFlight` the cancellation tokens of dispatched fetches and
  `cancelled` the set of tokens that have been signalled.
* Grid operations (`Move`, `SetLocation`, `SetTile`, `CancelLoadingTiles`)
  are modelled as atomic state transformers; the dispatch goroutine body that
  `SetLocation` spawns per visible tile is additionally given a fine-grained
  small-step model (`DStep`) to reason about interleavings of its individual
  loads and stores.
-/

/-- `MAX_ZOOM` constant of src/grid.go. -/
def MAX_ZOOM : ℚ := 16

/-- `MIN_ZOOM` constant of src/grid.go. -/
def MIN_ZOOM : ℚ := 2

/-- World-space location, src/grid.go `Coord` (float32 fields modelled as ℚ). -/
structure Coord where
  X : ℚ
  Y : ℚ
  Z : ℚ
deriving DecidableEq, Repr

/-- The zoom clamp at the end of `Coord.Add`:
`if c.Z > MAX_ZOOM { c.Z = MAX_ZOOM } else if c.Z < MIN_ZOOM { c.Z = MIN_ZOOM }`. -/
def clampZ (z : ℚ) : ℚ :=
  if z > MAX_ZOOM then MAX_ZOOM else if z < MIN_ZOOM then MIN_ZOOM else z

/-- src/grid.go `Coord.Add`: pan add, then scale x,y by the sign of the zoom
delta, then clamp z to `[MIN_ZOOM, MAX_ZOOM]`.  The receiver mutation
`c.Add(a)` is modelled functionally as `Coord.Add c a`. -/
def Coord.Add (c a : Coord) : Coord :=
  let x := c.X + a.X
  let y := c.Y + a.Y
  if a.Z < 0 then
    ⟨x / 2, y / 2, clampZ (c.Z + a.Z)⟩
  else if a.Z > 0 then
    ⟨x * 2, y * 2, clampZ (c.Z + a.Z)⟩
  else
    ⟨x, y, clampZ c.Z⟩

/-- Truncation toward zero, the semantics of Go's float-to-integer
conversion (for in-range values). -/
def truncQ (q : ℚ) : ℤ :=
  if 0 ≤ q then ⌊q⌋ else ⌈q⌉

/-- The clamp `if tX < 0 { tX = 0 }` applied to a tile index in
`forEachVisibleTile` of src/grid.go. -/
def clampIdx (q : ℚ) : ℚ :=
  if q < 0 then 0 else q

/-- Discrete tile address, `tile.TileCoord` of src/tile (uint32 fields; we
model the converted values in ℤ so that non-negativity is statable). -/
structure TileCoord where
  X : ℤ
  Y : ℤ
  Z : ℤ
deriving DecidableEq, Repr

/-- A fetched tile, `tile.PngTile`; the decoded image is opaque to the grid
and modelled as an abstract tag. -/
structure PngTile where
  data : ℕ
deriving DecidableEq, Repr

/-- The grid, src/grid.go `TileGrid`.  The two `sync.Map`s become a key set
and a partial map, the channels become explicit queues/token lists. -/
structure TileGrid where
  location : Coord
  tileWidth : ℚ
  tileHeight : ℚ
  halfTileWidth : ℚ
  halfTileHeight : ℚ
  screenWidth : ℚ
  screenHeight : ℚ
  cache : TileCoord → Option PngTile
  loading : Finset TileCoord
  ScreenTileWidth : ℕ
  ScreenTileHeight : ℕ
  TilesToLoad : List TileCoord
  TilesToExpire : List TileCoord
  TilesInFlight : List ℕ
  cancelled : Finset ℕ

/-- One iteration axis of the `for x := x1; x < x2; x += step` loops of
`forEachVisibleTile`: the sequence of loop-variable values.  The loop only
terminates for a positive step, which the guard records. -/
def coordSteps (stop step x : ℚ) : List ℚ :=
  if h : 0 < step ∧ x < stop then
    x :: coordSteps stop step (x + step)
  else
    []
termination_by (⌈(stop - x) / step⌉).toNat
decreasing_by
  have hstep := h.1
  have hx := h.2
  have hq : (0 : ℚ) < (stop - x) / step := by
    apply div_pos <;> linarith
  have hc : 0 < ⌈(stop - x) / step⌉ := Int.ceil_pos.mpr hq
  have he : (stop - (x + step)) / step = (stop - x) / step - 1 := by
    field_simp
    ring
  have hrw : ⌈(stop - (x + step)) / step⌉ = ⌈(stop - x) / step⌉ - 1 := by
    rw [he, Int.ceil_sub_one]
  omega

/-- The tile key computed for one grid cell in `forEachVisibleTile`:
divide the world coordinate by the tile size, clamp negatives to 0,
convert to integer. -/
def cellAux (tw th Z x y : ℚ) : TileCoord :=
  ⟨truncQ (clampIdx (x / tw)), truncQ (clampIdx (y / th)), truncQ Z⟩

/-- The visit sequence of src/grid.go `TileGrid.forEachVisibleTile`,
as a function of the geometry fields: the nested x-outer/y-inner loop over
the rectangle `[X - tw, X + htw + sw) × [Y - th, Y + hth + sh)` at tile
granularity. -/
def visibleTilesAux (X Y Z tw th htw hth sw sh : ℚ) : List TileCoord :=
  let x1 := X - tw
  let x2 := X + htw + sw
  let y1 := Y - th
  let y2 := Y + hth + sh
  (coordSteps x2 tw x1).flatMap fun x =>
    (coordSteps y2 th y1).map fun y => cellAux tw th Z x y

/-- The visit sequence of `forEachVisibleTile` for a grid. -/
def visibleTiles (g : TileGrid) : List TileCoord :=
  visibleTilesAux g.location.X g.location.Y g.location.Z
    g.tileWidth g.tileHeight g.halfTileWidth g.halfTileHeight
    g.screenWidth g.screenHeight

/-- The body of the per-tile goroutine spawned by `TileGrid.SetLocation`,
run to completion atomically: skip a key that is already loading or cached,
otherwise mark it loading and enqueue it on `TilesToLoad`. -/
def dispatchTile (g : TileGrid) (k : TileCoord) : TileGrid :=
  if k ∈ g.loading then g
  else if (g.cache k).isSome then g
  else { g with loading := insert k g.loading, TilesToLoad := g.TilesToLoad ++ [k] }

/-- src/grid.go `TileGrid.SetLocation`: overwrite the location, then for each
visible tile run the dispatch body. -/
def SetLocation (g : TileGrid) (location : Coord) : TileGrid :=
  let g1 := { g with location := location }
  (visibleTiles g1).foldl dispatchTile g1

/-- src/grid.go `TileGrid.SetTile`: remove the key from the loading set and
store the tile in the cache. -/
def SetTile (g : TileGrid) (coord : TileCoord) (t : PngTile) : TileGrid :=
  { g with
    loading := g.loading.erase coord,
    cache := fun k => if k = coord then some t else g.cache k }

/-- src/grid.go `TileGrid.CancelLoadingTiles`: drain the `TilesToLoad`
channel (deleting each drained key from the loading set and the cache),
invoke every cancellation function sitting in `TilesInFlight`, then clear
the whole loading set. -/
def CancelLoadingTiles (g : TileGrid) : TileGrid :=
  { g with
    loading := ∅,
    cache := fun k => if k ∈ g.TilesToLoad then none else g.cache k,
    TilesToLoad := [],
    TilesInFlight := [],
    cancelled := g.cancelled ∪ g.TilesInFlight.toFinset }

/-- src/grid.go `TileGrid.Move`: apply the delta to the location; on a zoom
change first cancel the loading tiles and then shift the pan offset by the
re-centering amount; finally call `SetLocation` with the resulting
location. -/
def Move (g : TileGrid) (delta : Coord) : TileGrid :=
  let g1 := { g with location := g.location.Add delta }
  let g2 :=
    if delta.Z ≠ 0 then
      let gc := CancelLoadingTiles g1
      if delta.Z < 0 then
        let shift : Coord :=
          ⟨-(gc.ScreenTileWidth : ℚ) / 4 * gc.tileWidth,
           -(gc.ScreenTileHeight : ℚ) / 4 * gc.tileHeight, 0⟩
        { gc with location := gc.location.Add shift }
      else
        let shift : Coord :=
          ⟨(gc.ScreenTileWidth : ℚ) / 2 * gc.tileWidth,
           (gc.ScreenTileHeight : ℚ) / 2 * gc.tileHeight, 0⟩
        { gc with location := gc.location.Add shift }
    else g1
  SetLocation g2 g2.location

/-- src/grid.go `NewTileGrid`: reject zero sizes (the parameters are uint32,
so "zero or negative" collapses to zero), build the grid, and run the initial
`SetLocation`. -/
def NewTileGrid (current : Coord) (tileWidth tileHeight screenWidth screenHeight : ℕ) :
    Except String TileGrid :=
  if screenWidth = 0 ∨ screenHeight = 0 then
    .error "screen width and height must be positive"
  else if tileWidth = 0 ∨ tileHeight = 0 then
    .error "tile width and height must be positive"
  else
    let grid : TileGrid := {
      location := current
      cache := fun _ => none
      loading := ∅
      TilesToLoad := []
      TilesToExpire := []
      TilesInFlight := []
      cancelled := ∅
      tileWidth := (tileWidth : ℚ)
      tileHeight := (tileHeight : ℚ)
      halfTileWidth := (tileWidth : ℚ) / 2
      halfTileHeight := (tileHeight : ℚ) / 2
      screenWidth := (screenWidth : ℚ)
      screenHeight := (screenHeight : ℚ)
      ScreenTileWidth := screenWidth / tileWidth
      ScreenTileHeight := screenHeight / tileHeight }
    .ok (SetLocation grid current)

/-- src/grid.go `TileGrid.Drawable`: the cached tiles of the visible keys,
in visit order, skipping absent entries. -/
def Drawable (g : TileGrid) : List PngTile :=
  (visibleTiles g).filterMap g.cache

/-- One externally invokable grid mutation, for reasoning about arbitrary
call sequences. -/
inductive GridOp where
  | move (delta : Coord)
  | setLocation (location : Coord)
  | setTile (coord : TileCoord) (t : PngTile)
deriving DecidableEq, Repr

/-- Run one grid operation. -/
def applyOp (g : TileGrid) : GridOp → TileGrid
  | .move d => Move g d
  | .setLocation l => SetLocation g l
  | .setTile k t => SetTile g k t

/-- Run a sequence of grid operations left to right. -/
def applyOps (g : TileGrid) (ops : List GridOp) : TileGrid :=
  ops.foldl applyOp g

/-- The shared state touched by the per-tile dispatch goroutines of
`SetLocation`: the loading set, the set of cached keys, the sequence of keys
sent on the `TilesToLoad` channel so far, and the goroutines still running.
A task `(k, pc)` is the goroutine for key `k` at program counter `pc`:
`0` = about to load from `loading`, `1` = about to load from `cache`,
`2` = about to store into `loading`, `3` = about to send on the channel. -/
structure DispatchSys where
  loading : Finset TileCoord
  cacheKeys : Finset TileCoord
  queue : List TileCoord
  tasks : List (TileCoord × ℕ)
deriving DecidableEq

/-- Fine-grained interleaving semantics of the dispatch goroutine body of
src/grid.go `SetLocation`:

```
_, exists := t.loading.Load(tileCoord); if exists { return }
_, exists = t.cache.Load(tileCoord);   if exists { return }
t.loading.Store(tileCoord, true)
t.TilesToLoad <- tileCoord
```

Each constructor executes one of the four lines of one goroutine; distinct
goroutines may interleave arbitrarily. -/
inductive DStep : DispatchSys → DispatchSys → Prop where
  | checkLoadingHit (s : DispatchSys) (pre post : List (TileCoord × ℕ)) (k : TileCoord) :
      s.tasks = pre ++ (k, 0) :: post → k ∈ s.loading →
      DStep s { s with tasks := pre ++ post }
  | checkLoadingMiss (s : DispatchSys) (pre post : List (TileCoord × ℕ)) (k : TileCoord) :
      s.tasks = pre ++ (k, 0) :: post → k ∉ s.loading →
      DStep s { s with tasks := pre ++ (k, 1) :: post }
  | checkCacheHit (s : DispatchSys) (pre post : List (TileCoord × ℕ)) (k : TileCoord) :
      s.tasks = pre ++ (k, 1) :: post → k ∈ s.cacheKeys →
      DStep s { s with tasks := pre ++ post }
  | checkCacheMiss (s : DispatchSys) (pre post : List (TileCoord × ℕ)) (k : TileCoord) :
      s.tasks = pre ++ (k, 1) :: post → k ∉ s.cacheKeys →
      DStep s { s with tasks := pre ++ (k, 2) :: post }
  | storeLoading (s : DispatchSys) (pre post : List (TileCoord × ℕ)) (k : TileCoord) :
      s.tasks = pre ++ (k, 2) :: post →
      DStep s { s with loading := insert k s.loading, tasks := pre ++ (k, 3) :: post }
  | send (s : DispatchSys) (pre post : List (TileCoord × ℕ)) (k : TileCoord) :
      s.tasks = pre ++ (k, 3) :: post →
      DStep s { s with queue := s.queue ++ [k], tasks := pre ++ post }

/-- A grid as built by `NewTileGrid ⟨0,0,6⟩ 256 256 512 512` before its
initial `SetLocation` runs: used as a concrete test fixture. -/
def demoGrid512 : TileGrid := {
  location := ⟨0, 0, 6⟩
  cache := fun _ => none
  loading := ∅
  TilesToLoad := []
  TilesToExpire := []
  TilesInFlight := []
  cancelled := ∅
  tileWidth := 256
  tileHeight := 256
  halfTileWidth := 128
  halfTileHeight := 128
  screenWidth := 512
  screenHeight := 512
  ScreenTileWidth := 2
  ScreenTileHeight := 2 }

/-- A grid whose viewport (300×300) is not a multiple of the tile size
(256×256): used as a concrete test fixture.  `ScreenTileWidth` is the Go
integer division `300 / 256 = 1`. -/
def demoGrid300 : TileGrid := {
  location := ⟨0, 0, 6⟩
  cache := fun _ => none
  loading := ∅
  TilesToLoad := []
  TilesToExpire := []
  TilesInFlight := []
  cancelled := ∅
  tileWidth := 256
  tileHeight := 256
  halfTileWidth := 128
  halfTileHeight := 128
  screenWidth := 300
  screenHeight := 300
  ScreenTileWidth := 1
  ScreenTileHeight := 1 }

/-- The key-level disjointness invariant of the grid: no key is both in the
loading set and present in the cache. -/
def disjInv (g : TileGrid) : Prop :=
  ∀ k ∈ g.loading, g.cache k = none

/-- The load-queue invariant of the grid under atomic operations: the
pending `TilesToLoad` queue holds no duplicate key, and every queued key is
still marked loading or already cached. -/
def queueInv (g : TileGrid) : Prop :=
  g.TilesToLoad.Nodup ∧ ∀ k ∈ g.TilesToLoad, k ∈ g.loading ∨ (g.cache k).isSome

/-! ## Helper lemmas -/

/-- The loop-value sequence, in closed form: for a positive step the loop
from `x` while `< stop` visits `x + i * step` for `i < ⌈(stop - x)/step⌉`. -/
theorem coordSteps_eq (stop step x : ℚ) (hstep : 0 < step) :
    coordSteps stop step x =
      (List.range (⌈(stop - x) / step⌉).toNat).map (fun i : ℕ => x + (i : ℚ) * step) := by
  induction x using coordSteps.induct stop step with
  | case1 x h ih =>
    rw [coordSteps, dif_pos h]
    have hq : (0 : ℚ) < (stop - x) / step := div_pos (by linarith [h.2]) hstep
    have hc : 0 < ⌈(stop - x) / step⌉ := Int.ceil_pos.mpr hq
    have he : (stop - (x + step)) / step = (stop - x) / step - 1 := by
      field_simp
      ring
    have hrw : ⌈(stop - (x + step)) / step⌉ = ⌈(stop - x) / step⌉ - 1 := by
      rw [he, Int.ceil_sub_one]
    obtain ⟨n, hn⟩ : ∃ n : ℕ, (⌈(stop - x) / step⌉).toNat = n + 1 :=
      ⟨(⌈(stop - x) / step⌉).toNat - 1, by omega⟩
    rw [hn, List.range_succ_eq_map, List.map_cons, List.map_map]
    rw [ih, hrw]
    have hn' : (⌈(stop - x) / step⌉ - 1).toNat = n := by omega
    rw [hn']
    refine List.cons_eq_cons.mpr ⟨by push_cast; ring, ?_⟩
    apply List.map_congr_left
    intro i _
    simp only [Function.comp]
    push_cast
    ring
  | case2 x h =>
    rw [coordSteps, dif_neg h]
    have hx2 : ¬ x < stop := fun hlt => h ⟨hstep, hlt⟩
    have h1 : (stop - x) / step ≤ 0 := by
      apply div_nonpos_of_nonpos_of_nonneg <;> linarith
    have h2 : ⌈(stop - x) / step⌉ ≤ 0 := by
      have := Int.ceil_le.mpr (show (stop - x) / step ≤ ((0 : ℤ) : ℚ) by push_cast; linarith)
      simpa using this
    have h3 : (⌈(stop - x) / step⌉).toNat = 0 := by omega
    rw [h3]
    simp

/-- Unfolding step of the loop when the guard holds. -/
theorem coordSteps_cons (stop step x : ℚ) (hstep : 0 < step) (hx : x < stop) :
    coordSteps stop step x = x :: coordSteps stop step (x + step) := by
  rw [coordSteps, dif_pos ⟨hstep, hx⟩]

/-- The zoom clamp lands in `[MIN_ZOOM, MAX_ZOOM]`. -/
theorem clampZ_mem (z : ℚ) : MIN_ZOOM ≤ clampZ z ∧ clampZ z ≤ MAX_ZOOM := by
  unfold clampZ MIN_ZOOM MAX_ZOOM
  split_ifs with h1 h2
  · norm_num
  · norm_num
  · exact ⟨not_lt.mp h2, not_lt.mp h1⟩

/-- The z-component of `Coord.Add` is always the clamped sum. -/
theorem Add_Z (c a : Coord) : (c.Add a).Z = clampZ (c.Z + a.Z) := by
  unfold Coord.Add
  split_ifs with h1 h2
  · rfl
  · rfl
  · have : a.Z = 0 := le_antisymm (not_lt.mp h2) (not_lt.mp h1)
    simp [this]

/-- After any `Coord.Add`, z lies in `[MIN_ZOOM, MAX_ZOOM]`. -/
theorem Add_Z_mem (c a : Coord) :
    MIN_ZOOM ≤ (c.Add a).Z ∧ (c.Add a).Z ≤ MAX_ZOOM := by
  rw [Add_Z]
  exact clampZ_mem _

/-- `dispatchTile` changes only `loading` and `TilesToLoad`: generic
preservation of any projection it fixes, through the `foldl`. -/
theorem foldl_dispatchTile_proj {α : Type} (f : TileGrid → α)
    (hf : ∀ g k, f (dispatchTile g k) = f g) :
    ∀ (l : List TileCoord) (g : TileGrid), f (l.foldl dispatchTile g) = f g := by
  intro l
  induction l with
  | nil => intro g; rfl
  | cons a l ih =>
    intro g
    rw [List.foldl_cons, ih, hf]

theorem dispatchTile_location (g : TileGrid) (k : TileCoord) :
    (dispatchTile g k).location = g.location := by
  unfold dispatchTile
  split_ifs <;> rfl

theorem dispatchTile_tileWidth (g : TileGrid) (k : TileCoord) :
    (dispatchTile g k).tileWidth = g.tileWidth := by
  unfold dispatchTile
  split_ifs <;> rfl

theorem dispatchTile_tileHeight (g : TileGrid) (k : TileCoord) :
    (dispatchTile g k).tileHeight = g.tileHeight := by
  unfold dispatchTile
  split_ifs <;> rfl

theorem dispatchTile_halfTileWidth (g : TileGrid) (k : TileCoord) :
    (dispatchTile g k).halfTileWidth = g.halfTileWidth := by
  unfold dispatchTile
  split_ifs <;> rfl

theorem dispatchTile_halfTileHeight (g : TileGrid) (k : TileCoord) :
    (dispatchTile g k).halfTileHeight = g.halfTileHeight := by
  unfold dispatchTile
  split_ifs <;> rfl

theorem dispatchTile_screenWidth (g : TileGrid) (k : TileCoord) :
    (dispatchTile g k).screenWidth = g.screenWidth := by
  unfold dispatchTile
  split_ifs <;> rfl

theorem dispatchTile_screenHeight (g : TileGrid) (k : TileCoord) :
    (dispatchTile g k).screenHeight = g.screenHeight := by
  unfold dispatchTile
  split_ifs <;> rfl

theorem dispatchTile_cache (g : TileGrid) (k : TileCoord) :
    (dispatchTile g k).cache = g.cache := by
  unfold dispatchTile
  split_ifs <;> rfl

theorem dispatchTile_cancelled (g : TileGrid) (k : TileCoord) :
    (dispatchTile g k).cancelled = g.cancelled := by
  unfold dispatchTile
  split_ifs <;> rfl

theorem dispatchTile_TilesInFlight (g : TileGrid) (k : TileCoord) :
    (dispatchTile g k).TilesInFlight = g.TilesInFlight := by
  unfold dispatchTile
  split_ifs <;> rfl

theorem SetLocation_location (g : TileGrid) (l : Coord) :
    (SetLocation g l).location = l := by
  unfold SetLocation
  rw [foldl_dispatchTile_proj TileGrid.location dispatchTile_location]

theorem SetLocation_cache (g : TileGrid) (l : Coord) :
    (SetLocation g l).cache = g.cache := by
  unfold SetLocation
  rw [foldl_dispatchTile_proj TileGrid.cache dispatchTile_cache]

theorem SetLocation_cancelled (g : TileGrid) (l : Coord) :
    (SetLocation g l).cancelled = g.cancelled := by
  unfold SetLocation
  rw [foldl_dispatchTile_proj TileGrid.cancelled dispatchTile_cancelled]

theorem SetLocation_TilesInFlight (g : TileGrid) (l : Coord) :
    (SetLocation g l).TilesInFlight = g.TilesInFlight := by
  unfold SetLocation
  rw [foldl_dispatchTile_proj TileGrid.TilesInFlight dispatchTile_TilesInFlight]

/-- `visibleTiles` depends only on the location and geometry fields. -/
theorem visibleTiles_SetLocation (g : TileGrid) (l : Coord) :
    visibleTiles (SetLocation g l) =
      visibleTilesAux l.X l.Y l.Z g.tileWidth g.tileHeight
        g.halfTileWidth g.halfTileHeight g.screenWidth g.screenHeight := by
  unfold visibleTiles
  rw [SetLocation_location]
  unfold SetLocation
  rw [foldl_dispatchTile_proj TileGrid.tileWidth dispatchTile_tileWidth,
      foldl_dispatchTile_proj TileGrid.tileHeight dispatchTile_tileHeight,
      foldl_dispatchTile_proj TileGrid.halfTileWidth dispatchTile_halfTileWidth,
      foldl_dispatchTile_proj TileGrid.halfTileHeight dispatchTile_halfTileHeight,
      foldl_dispatchTile_proj TileGrid.screenWidth dispatchTile_screenWidth,
      foldl_dispatchTile_proj TileGrid.screenHeight dispatchTile_screenHeight]

/-- The location a `Move` leaves behind always comes out of `Coord.Add`, so
its zoom is clamped. -/
theorem Move_Z_mem (g : TileGrid) (d : Coord) :
    MIN_ZOOM ≤ (Move g d).location.Z ∧ (Move g d).location.Z ≤ MAX_ZOOM := by
  unfold Move
  split_ifs with h1 h2 <;> rw [SetLocation_location] <;> exact Add_Z_mem _ _

/-! ## Claim theorems -/

/-- Claim C1: after every `Move` in any sequence of `Move` calls with
arbitrary deltas, the location's zoom component stays inside
`[MIN_ZOOM, MAX_ZOOM]`, starting from any initial zoom inside that
interval. -/
theorem move_zoom_invariant (g : TileGrid) (ds : List Coord)
    (h : MIN_ZOOM ≤ g.location.Z ∧ g.location.Z ≤ MAX_ZOOM) :
    ∀ g' ∈ List.scanl Move g ds,
      MIN_ZOOM ≤ g'.location.Z ∧ g'.location.Z ≤ MAX_ZOOM := by
  induction ds generalizing g with
  | nil =>
    intro g' hg'
    simp only [List.scanl_nil, List.mem_singleton] at hg'
    subst hg'
    exact h
  | cons d ds ih =>
    intro g' hg'
    rw [List.scanl_cons] at hg'
    rcases List.mem_cons.mp hg' with h1 | h1
    · subst h1
      exact h
    · exact ih (Move g d) (Move_Z_mem g d) g' h1

/-- Witness for C1 at a concrete grid and delta sequence. -/
theorem move_zoom_invariant_witness :
    (MIN_ZOOM ≤ demoGrid512.location.Z ∧ demoGrid512.location.Z ≤ MAX_ZOOM) ∧
    ∀ g' ∈ List.scanl Move demoGrid512 [⟨0, 0, -100⟩, ⟨5, 5, 77⟩],
      MIN_ZOOM ≤ g'.location.Z ∧ g'.location.Z ≤ MAX_ZOOM :=
  ⟨by norm_num [demoGrid512, MIN_ZOOM, MAX_ZOOM],
   move_zoom_invariant demoGrid512 [⟨0, 0, -100⟩, ⟨5, 5, 77⟩]
     (by norm_num [demoGrid512, MIN_ZOOM, MAX_ZOOM])⟩

/-- Claim C2: `Coord.Add` scales the pan offset by the zoom sign (halve for
`a.Z < 0`, double for `a.Z > 0`, nothing for `a.Z = 0`) and the scaling is
applied before the zoom clamp: the x/y result is given by the same formula
whether or not `clampZ` ends up clamping `c.Z + a.Z`. -/
theorem add_scales_before_clamp (c a : Coord) :
    (c.Add a).X = (if a.Z < 0 then (c.X + a.X) / 2
                   else if a.Z > 0 then (c.X + a.X) * 2 else c.X + a.X) ∧
    (c.Add a).Y = (if a.Z < 0 then (c.Y + a.Y) / 2
                   else if a.Z > 0 then (c.Y + a.Y) * 2 else c.Y + a.Y) ∧
    (c.Add a).Z = clampZ (c.Z + a.Z) := by
  refine ⟨?_, ?_, Add_Z c a⟩ <;>
    · unfold Coord.Add
      split_ifs <;> rfl

/-- Claim C7: a zoom-out by `dz < 0` followed by a zoom-in of equal
magnitude (zero pan components) restores the coordinate exactly, provided
neither step clamps the zoom.  In the exact rational model
halve-then-double is an exact inverse. -/
theorem halve_then_double_inverse (c : Coord) (dz : ℚ) (hdz : dz < 0)
    (hmin : MIN_ZOOM ≤ c.Z + dz) (hmax : c.Z ≤ MAX_ZOOM) :
    (Coord.Add (Coord.Add c ⟨0, 0, dz⟩) ⟨0, 0, -dz⟩) = c := by
  obtain ⟨cx, cy, cz⟩ := c
  simp only [MIN_ZOOM, MAX_ZOOM] at hmin hmax
  have h1 : clampZ (cz + dz) = cz + dz := by
    unfold clampZ MIN_ZOOM MAX_ZOOM
    rw [if_neg (by simp; linarith), if_neg (by simp [MIN_ZOOM] at hmin ⊢; linarith)]
  have h2 : clampZ cz = cz := by
    unfold clampZ MIN_ZOOM MAX_ZOOM
    rw [if_neg (by simp; linarith), if_neg (by simp; linarith)]
  unfold Coord.Add
  simp only [if_pos hdz]
  rw [if_neg (show ¬ (-dz < 0) by linarith), if_pos (show -dz > 0 by linarith)]
  simp only [h1]
  rw [show cz + dz + -dz = cz by ring, h2]
  simp only [Coord.mk.injEq]
  refine ⟨by ring, by ring, trivial⟩

/-- Witness for C7 at `c = (10, 20, 6)`, `dz = -1`. -/
theorem halve_then_double_inverse_witness :
    (-1 : ℚ) < 0 ∧ MIN_ZOOM ≤ (6 : ℚ) + -1 ∧ (6 : ℚ) ≤ MAX_ZOOM ∧
    (Coord.Add (Coord.Add ⟨10, 20, 6⟩ ⟨0, 0, -1⟩) ⟨0, 0, -(-1)⟩) = (⟨10, 20, 6⟩ : Coord) :=
  ⟨by norm_num, by norm_num [MIN_ZOOM], by norm_num [MAX_ZOOM],
   halve_then_double_inverse ⟨10, 20, 6⟩ (-1) (by norm_num)
     (by norm_num [MIN_ZOOM]) (by norm_num [MAX_ZOOM])⟩

theorem clampIdx_nonneg (q : ℚ) : 0 ≤ clampIdx q := by
  unfold clampIdx
  split_ifs with h
  · exact le_refl 0
  · exact not_lt.mp h

theorem truncQ_clampIdx_nonneg (q : ℚ) : 0 ≤ truncQ (clampIdx q) := by
  unfold truncQ
  rw [if_pos (clampIdx_nonneg q)]
  exact Int.floor_nonneg.mpr (clampIdx_nonneg q)

theorem truncQ_clampIdx_eq_zero (q : ℚ) (h : q < 1) : truncQ (clampIdx q) = 0 := by
  unfold clampIdx
  by_cases h0 : q < 0
  · rw [if_pos h0]
    unfold truncQ
    norm_num
  · rw [if_neg h0]
    unfold truncQ
    rw [if_pos (not_lt.mp h0)]
    exact Int.floor_eq_zero_iff.mpr ⟨not_lt.mp h0, h⟩

set_option maxRecDepth 10000

/-- Concrete evaluation of the visit sequence for location `(0,0,6)`,
256×256 tiles, 512×512 viewport: the loop runs over world coordinates
`-256, 0, 256, 512` on each axis and clamps the `-1` index to `0`. -/
theorem visibleTilesAux_demo : visibleTilesAux 0 0 6 256 256 128 128 512 512 =
    [⟨0,0,6⟩, ⟨0,0,6⟩, ⟨0,1,6⟩, ⟨0,2,6⟩,
     ⟨0,0,6⟩, ⟨0,0,6⟩, ⟨0,1,6⟩, ⟨0,2,6⟩,
     ⟨1,0,6⟩, ⟨1,0,6⟩, ⟨1,1,6⟩, ⟨1,2,6⟩,
     ⟨2,0,6⟩, ⟨2,0,6⟩, ⟨2,1,6⟩, ⟨2,2,6⟩] := by
  have hc : (⌈((0:ℚ) + 128 + 512 - (0 - 256)) / 256⌉).toNat = 4 := by
    have h4 : ⌈((0:ℚ) + 128 + 512 - (0 - 256)) / 256⌉ = 4 := by
      rw [Int.ceil_eq_iff]
      constructor <;> norm_num
    rw [h4]
    rfl
  rw [visibleTilesAux]
  rw [coordSteps_eq _ _ _ (by norm_num), hc]
  norm_num [List.range_succ, List.flatMap_cons, List.flatMap_nil, cellAux, clampIdx, truncQ]

theorem visibleTiles_demoGrid512 : visibleTiles demoGrid512 =
    [⟨0,0,6⟩, ⟨0,0,6⟩, ⟨0,1,6⟩, ⟨0,2,6⟩,
     ⟨0,0,6⟩, ⟨0,0,6⟩, ⟨0,1,6⟩, ⟨0,2,6⟩,
     ⟨1,0,6⟩, ⟨1,0,6⟩, ⟨1,1,6⟩, ⟨1,2,6⟩,
     ⟨2,0,6⟩, ⟨2,0,6⟩, ⟨2,1,6⟩, ⟨2,2,6⟩] :=
  visibleTilesAux_demo

/-- Claim C4: the visible-tile computation never yields a key with a
negative x or y index, and a cell whose world coordinate is negative
produces index 0. -/
theorem visible_tiles_nonneg :
    (∀ (g : TileGrid), ∀ k ∈ visibleTiles g, 0 ≤ k.X ∧ 0 ≤ k.Y) ∧
    (∀ tw th Z x y : ℚ, 0 < tw → x < 0 → (cellAux tw th Z x y).X = 0) ∧
    (∀ tw th Z x y : ℚ, 0 < th → y < 0 → (cellAux tw th Z x y).Y = 0) := by
  refine ⟨?_, ?_, ?_⟩
  · intro g k hk
    unfold visibleTiles visibleTilesAux at hk
    simp only [List.mem_flatMap, List.mem_map] at hk
    obtain ⟨x, _, y, _, rfl⟩ := hk
    exact ⟨truncQ_clampIdx_nonneg _, truncQ_clampIdx_nonneg _⟩
  · intro tw th Z x y htw hx
    show truncQ (clampIdx (x / tw)) = 0
    exact truncQ_clampIdx_eq_zero _ (lt_trans (div_neg_of_neg_of_pos hx htw) one_pos)
  · intro tw th Z x y hth hy
    show truncQ (clampIdx (y / th)) = 0
    exact truncQ_clampIdx_eq_zero _ (lt_trans (div_neg_of_neg_of_pos hy hth) one_pos)

/-- Witness for C4: a concrete visible key of the demo grid is non-negative,
and a concrete negative world coordinate clamps to index 0. -/
theorem visible_tiles_nonneg_witness :
    ((⟨0,0,6⟩ : TileCoord) ∈ visibleTiles demoGrid512 ∧
      0 ≤ (⟨0,0,6⟩ : TileCoord).X ∧ 0 ≤ (⟨0,0,6⟩ : TileCoord).Y) ∧
    ((0:ℚ) < 256 ∧ (-5:ℚ) < 0 ∧ (cellAux 256 256 6 (-5) 7).X = 0) := by
  have hm : (⟨0,0,6⟩ : TileCoord) ∈ visibleTiles demoGrid512 := by
    rw [visibleTiles_demoGrid512]
    simp
  exact ⟨⟨hm, visible_tiles_nonneg.1 demoGrid512 _ hm⟩,
    ⟨by norm_num, by norm_num,
     visible_tiles_nonneg.2.1 256 256 6 (-5) 7 (by norm_num) (by norm_num)⟩⟩

/-- Claim C6: a grid created at `(0,0,6)` with 256×256 tiles and a 512×512
viewport computes exactly the visible keys `{0,1,2} × {0,1,2}` at zoom 6,
and no key outside that set. -/
theorem grid_512_visible_set :
    ∃ g, NewTileGrid ⟨0, 0, 6⟩ 256 256 512 512 = .ok g ∧
      (visibleTiles g).toFinset =
        ({⟨0,0,6⟩, ⟨0,1,6⟩, ⟨0,2,6⟩, ⟨1,0,6⟩, ⟨1,1,6⟩, ⟨1,2,6⟩,
          ⟨2,0,6⟩, ⟨2,1,6⟩, ⟨2,2,6⟩} : Finset TileCoord) := by
  refine ⟨_, rfl, ?_⟩
  rw [visibleTiles_SetLocation]
  norm_num
  rw [visibleTilesAux_demo]
  decide

/-- Claim C3, counterexample: the re-centering shift on zoom-out is
`-(ScreenTileWidth/4)·tileWidth` with `ScreenTileWidth = ⌊viewport/tile⌋`,
not a quarter of the viewport width.  For a 300×300 viewport with 256×256
tiles, `Move` with `dz = -1` shifts x by `-64`, while a quarter of the
viewport width would be `-75`. -/
theorem move_recenter_counterexample :
    (Move demoGrid300 ⟨0, 0, -1⟩).location.X = -64 ∧
    -(demoGrid300.screenWidth / 4) = -75 ∧ ((-64 : ℚ) ≠ -75) := by
  refine ⟨?_, by norm_num [demoGrid300], by norm_num⟩
  simp only [Move]
  rw [SetLocation_location]
  norm_num [CancelLoadingTiles, demoGrid300, Coord.Add, clampZ, MIN_ZOOM, MAX_ZOOM]

/-- Claim C3 (amended): on a nonzero zoom delta `Move` first cancels the
in-flight fetches — draining the pending load queue, signalling every
dispatched cancellation token and leaving the loading set empty — then
shifts the pan offset by `-(ScreenTileWidth/4)·tileWidth` per axis on
zoom-out and `+(ScreenTileWidth/2)·tileWidth` on zoom-in (quarter/half of
the whole-tile viewport span `⌊viewport/tile⌋·tile`, not of the viewport
itself), and finally calls `SetLocation` with the adjusted location; on a
zero zoom delta no cancellation and no re-centering occurs. -/
theorem move_cancel_recenter (g : TileGrid) (d : Coord) :
    (CancelLoadingTiles g).loading = ∅ ∧
    (CancelLoadingTiles g).TilesToLoad = [] ∧
    (CancelLoadingTiles g).TilesInFlight = [] ∧
    (CancelLoadingTiles g).cancelled = g.cancelled ∪ g.TilesInFlight.toFinset ∧
    (d.Z < 0 →
      Move g d =
        SetLocation
          { CancelLoadingTiles { g with location := g.location.Add d } with
            location := (CancelLoadingTiles { g with location := g.location.Add d }).location.Add
              ⟨-(g.ScreenTileWidth : ℚ) / 4 * g.tileWidth,
               -(g.ScreenTileHeight : ℚ) / 4 * g.tileHeight, 0⟩ }
          ((CancelLoadingTiles { g with location := g.location.Add d }).location.Add
              ⟨-(g.ScreenTileWidth : ℚ) / 4 * g.tileWidth,
               -(g.ScreenTileHeight : ℚ) / 4 * g.tileHeight, 0⟩)) ∧
    (0 < d.Z →
      Move g d =
        SetLocation
          { CancelLoadingTiles { g with location := g.location.Add d } with
            location := (CancelLoadingTiles { g with location := g.location.Add d }).location.Add
              ⟨(g.ScreenTileWidth : ℚ) / 2 * g.tileWidth,
               (g.ScreenTileHeight : ℚ) / 2 * g.tileHeight, 0⟩ }
          ((CancelLoadingTiles { g with location := g.location.Add d }).location.Add
              ⟨(g.ScreenTileWidth : ℚ) / 2 * g.tileWidth,
               (g.ScreenTileHeight : ℚ) / 2 * g.tileHeight, 0⟩)) ∧
    (d.Z = 0 →
      Move g d = SetLocation { g with location := g.location.Add d } (g.location.Add d) ∧
      (Move g d).cancelled = g.cancelled ∧
      (Move g d).TilesInFlight = g.TilesInFlight) := by
  refine ⟨rfl, rfl, rfl, rfl, ?_, ?_, ?_⟩
  · intro h
    have hne : d.Z ≠ 0 := ne_of_lt h
    simp only [Move, if_pos hne, if_pos h]
    rfl
  · intro h
    have hne : d.Z ≠ 0 := ne_of_gt h
    have hnl : ¬ d.Z < 0 := not_lt.mpr (le_of_lt h)
    simp only [Move, if_pos hne, if_neg hnl]
    rfl
  · intro h
    have hne : ¬ d.Z ≠ 0 := by simpa using h
    refine ⟨?_, ?_, ?_⟩
    · simp only [Move, if_neg hne]
    · simp only [Move, if_neg hne, SetLocation_cancelled]
    · simp only [Move, if_neg hne, SetLocation_TilesInFlight]

/-- Witness for C3 (amended) at the 300×300 fixture with `dz = -1`. -/
theorem move_cancel_recenter_witness :
    Move demoGrid300 ⟨0, 0, -1⟩ =
      SetLocation
        { CancelLoadingTiles { demoGrid300 with location := demoGrid300.location.Add ⟨0, 0, -1⟩ } with
          location := (CancelLoadingTiles { demoGrid300 with location := demoGrid300.location.Add ⟨0, 0, -1⟩ }).location.Add
            ⟨-(demoGrid300.ScreenTileWidth : ℚ) / 4 * demoGrid300.tileWidth,
             -(demoGrid300.ScreenTileHeight : ℚ) / 4 * demoGrid300.tileHeight, 0⟩ }
        ((CancelLoadingTiles { demoGrid300 with location := demoGrid300.location.Add ⟨0, 0, -1⟩ }).location.Add
            ⟨-(demoGrid300.ScreenTileWidth : ℚ) / 4 * demoGrid300.tileWidth,
             -(demoGrid300.ScreenTileHeight : ℚ) / 4 * demoGrid300.tileHeight, 0⟩) :=
  (move_cancel_recenter demoGrid300 ⟨0, 0, -1⟩).2.2.2.2.1 (by norm_num)

theorem CancelLoadingTiles_disjInv (g : TileGrid) : disjInv (CancelLoadingTiles g) := by
  intro k hk
  simp only [CancelLoadingTiles, Finset.not_mem_empty] at hk

theorem dispatchTile_disjInv (g : TileGrid) (k : TileCoord) (h : disjInv g) :
    disjInv (dispatchTile g k) := by
  unfold dispatchTile
  split_ifs with h1 h2
  · exact h
  · exact h
  · intro k' hk'
    rcases Finset.mem_insert.mp hk' with rfl | hk'
    · exact Option.not_isSome_iff_eq_none.mp h2
    · exact h k' hk'

theorem foldl_dispatchTile_disjInv (l : List TileCoord) :
    ∀ g : TileGrid, disjInv g → disjInv (l.foldl dispatchTile g) := by
  induction l with
  | nil => exact fun g h => h
  | cons a l ih => exact fun g h => ih _ (dispatchTile_disjInv g a h)

theorem SetLocation_disjInv (g : TileGrid) (l : Coord) (h : disjInv g) :
    disjInv (SetLocation g l) :=
  foldl_dispatchTile_disjInv _ _ h

theorem SetTile_disjInv (g : TileGrid) (k : TileCoord) (t : PngTile) (h : disjInv g) :
    disjInv (SetTile g k t) := by
  intro k' hk'
  have hm := Finset.mem_erase.mp hk'
  show (if k' = k then some t else g.cache k') = none
  rw [if_neg hm.1]
  exact h k' hm.2

theorem Move_disjInv (g : TileGrid) (d : Coord) (h : disjInv g) :
    disjInv (Move g d) := by
  unfold Move
  split_ifs with h1 h2
  · exact SetLocation_disjInv _ _ (CancelLoadingTiles_disjInv _)
  · exact SetLocation_disjInv _ _ (CancelLoadingTiles_disjInv _)
  · exact SetLocation_disjInv _ _ h

theorem applyOps_disjInv (ops : List GridOp) :
    ∀ g : TileGrid, disjInv g → disjInv (applyOps g ops) := by
  induction ops with
  | nil => exact fun g h => h
  | cons op ops ih =>
    intro g h
    refine ih (applyOp g op) ?_
    cases op with
    | move d => exact Move_disjInv g d h
    | setLocation l => exact SetLocation_disjInv g l h
    | setTile k t => exact SetTile_disjInv g k t h

/-- Claim C5: under any sequence of grid operations (interleavings of
`SetLocation`, `SetTile` and `Move` calls), the loading set and the cache
stay disjoint, and `SetTile` removes the key from the loading set while
storing it in the cache. -/
theorem loading_cache_disjoint (g : TileGrid) (ops : List GridOp) :
    (disjInv g → disjInv (applyOps g ops)) ∧
    (∀ (k : TileCoord) (t : PngTile),
      k ∉ (SetTile g k t).loading ∧ (SetTile g k t).cache k = some t) := by
  refine ⟨applyOps_disjInv ops g, ?_⟩
  intro k t
  constructor
  · exact Finset.not_mem_erase k g.loading
  · show (if k = k then some t else g.cache k) = some t
    rw [if_pos rfl]

/-- Witness for C5 at the 512×512 fixture with a concrete operation
sequence. -/
theorem loading_cache_disjoint_witness :
    disjInv (applyOps demoGrid512 [.setLocation ⟨0, 0, 6⟩, .setTile ⟨0, 0, 6⟩ ⟨1⟩]) ∧
    ((⟨0, 0, 6⟩ : TileCoord) ∉ (SetTile demoGrid512 ⟨0, 0, 6⟩ ⟨1⟩).loading ∧
      (SetTile demoGrid512 ⟨0, 0, 6⟩ ⟨1⟩).cache ⟨0, 0, 6⟩ = some ⟨1⟩) :=
  ⟨(loading_cache_disjoint demoGrid512 [.setLocation ⟨0, 0, 6⟩, .setTile ⟨0, 0, 6⟩ ⟨1⟩]).1
      (fun k hk => by simp [demoGrid512] at hk),
   (loading_cache_disjoint demoGrid512 []).2 ⟨0, 0, 6⟩ ⟨1⟩⟩

/-- Claim C8: `NewTileGrid` fails with an error exactly when one of the
four (unsigned) size parameters is zero, and returns a grid otherwise. -/
theorem new_tile_grid_validation (c : Coord) (tw th sw sh : ℕ) :
    ((tw = 0 ∨ th = 0 ∨ sw = 0 ∨ sh = 0) → ∃ e, NewTileGrid c tw th sw sh = .error e) ∧
    ((tw ≠ 0 ∧ th ≠ 0 ∧ sw ≠ 0 ∧ sh ≠ 0) → ∃ g, NewTileGrid c tw th sw sh = .ok g) := by
  constructor
  · intro h
    unfold NewTileGrid
    by_cases hs : sw = 0 ∨ sh = 0
    · rw [if_pos hs]
      exact ⟨_, rfl⟩
    · have ht : tw = 0 ∨ th = 0 := by tauto
      rw [if_neg hs, if_pos ht]
      exact ⟨_, rfl⟩
  · intro h
    unfold NewTileGrid
    rw [if_neg (by tauto), if_neg (by tauto)]
    exact ⟨_, rfl⟩

/-- Witness for C8: a zero tile width is rejected, full sizes are
accepted. -/
theorem new_tile_grid_validation_witness :
    ((0 = 0 ∨ 256 = 0 ∨ 512 = 0 ∨ 512 = 0) ∧
      ∃ e, NewTileGrid ⟨0, 0, 6⟩ 0 256 512 512 = .error e) ∧
    ((256 ≠ 0 ∧ 256 ≠ 0 ∧ 512 ≠ 0 ∧ 512 ≠ 0) ∧
      ∃ g, NewTileGrid ⟨0, 0, 6⟩ 256 256 512 512 = .ok g) :=
  ⟨⟨by norm_num, (new_tile_grid_validation ⟨0, 0, 6⟩ 0 256 512 512).1 (by norm_num)⟩,
   ⟨by norm_num, (new_tile_grid_validation ⟨0, 0, 6⟩ 256 256 512 512).2 (by norm_num)⟩⟩

theorem count_le_count_filterMap {α β : Type} [DecidableEq α] [DecidableEq β]
    (f : α → Option β) (k : α) (t : β) (hf : f k = some t) :
    ∀ l : List α, l.count k ≤ (l.filterMap f).count t := by
  intro l
  induction l with
  | nil => simp
  | cons a l ih =>
    rw [List.filterMap_cons]
    by_cases hak : a = k
    · subst hak
      rw [hf]
      simp only [List.count_cons, beq_self_eq_true, if_true]
      omega
    · have hbeq : (a == k) = false := beq_eq_false_iff_ne.mpr hak
      cases hfa : f a with
      | none =>
        simp only [List.count_cons, hbeq, Bool.false_eq_true, if_false, Nat.add_zero]
        exact ih
      | some u =>
        simp only [List.count_cons, hbeq, Bool.false_eq_true, if_false, Nat.add_zero]
        by_cases hut : (u == t) = true
        · simp only [hut, if_true]
          omega
        · simp only [hut, if_false]
          exact ih

/-- Near the origin the one-tile margin clamps several cells to index 0, so
the visit sequence repeats a key. -/
theorem visibleAux_dup (X Y Z tw th htw hth sw sh : ℚ)
    (htw0 : 0 < tw) (hth0 : 0 < th) (hhtw : 0 ≤ htw) (hhth : 0 ≤ hth)
    (hsw : 0 < sw) (hsh : 0 < sh) (hnear : X < tw ∨ Y < th) :
    ∃ k, 2 ≤ (visibleTilesAux X Y Z tw th htw hth sw sh).count k := by
  simp only [visibleTilesAux]
  have hxa : X - tw < X + htw + sw := by linarith
  have hxb : X - tw + tw < X + htw + sw := by linarith
  have hya : Y - th < Y + hth + sh := by linarith
  have hyb : Y - th + th < Y + hth + sh := by linarith
  have hxs : coordSteps (X + htw + sw) tw (X - tw) =
      (X - tw) :: coordSteps (X + htw + sw) tw (X - tw + tw) :=
    coordSteps_cons _ _ _ htw0 hxa
  have hxs2 : coordSteps (X + htw + sw) tw (X - tw + tw) =
      (X - tw + tw) :: coordSteps (X + htw + sw) tw (X - tw + tw + tw) :=
    coordSteps_cons _ _ _ htw0 hxb
  have hys : coordSteps (Y + hth + sh) th (Y - th) =
      (Y - th) :: coordSteps (Y + hth + sh) th (Y - th + th) :=
    coordSteps_cons _ _ _ hth0 hya
  have hys2 : coordSteps (Y + hth + sh) th (Y - th + th) =
      (Y - th + th) :: coordSteps (Y + hth + sh) th (Y - th + th + th) :=
    coordSteps_cons _ _ _ hth0 hyb
  rcases hnear with hX | hY
  · refine ⟨cellAux tw th Z (X - tw) (Y - th), ?_⟩
    have hcell : cellAux tw th Z (X - tw + tw) (Y - th) = cellAux tw th Z (X - tw) (Y - th) := by
      unfold cellAux
      rw [truncQ_clampIdx_eq_zero ((X - tw + tw) / tw) ((div_lt_one htw0).mpr (by linarith)),
          truncQ_clampIdx_eq_zero ((X - tw) / tw) ((div_lt_one htw0).mpr (by linarith))]
    rw [hxs, hxs2, List.flatMap_cons, List.flatMap_cons, List.count_append, List.count_append]
    have h1 : 1 ≤ ((coordSteps (Y + hth + sh) th (Y - th)).map
        fun y => cellAux tw th Z (X - tw) y).count (cellAux tw th Z (X - tw) (Y - th)) := by
      rw [hys, List.map_cons, List.count_cons]
      simp
    have h2 : 1 ≤ ((coordSteps (Y + hth + sh) th (Y - th)).map
        fun y => cellAux tw th Z (X - tw + tw) y).count (cellAux tw th Z (X - tw) (Y - th)) := by
      rw [hys, List.map_cons, hcell, List.count_cons]
      simp
    omega
  · refine ⟨cellAux tw th Z (X - tw) (Y - th), ?_⟩
    have hcell : cellAux tw th Z (X - tw) (Y - th + th) = cellAux tw th Z (X - tw) (Y - th) := by
      unfold cellAux
      rw [truncQ_clampIdx_eq_zero ((Y - th + th) / th) ((div_lt_one hth0).mpr (by linarith)),
          truncQ_clampIdx_eq_zero ((Y - th) / th) ((div_lt_one hth0).mpr (by linarith))]
    rw [hxs, List.flatMap_cons, List.count_append]
    have h1 : 2 ≤ ((coordSteps (Y + hth + sh) th (Y - th)).map
        fun y => cellAux tw th Z (X - tw) y).count (cellAux tw th Z (X - tw) (Y - th)) := by
      rw [hys, hys2, List.map_cons, List.map_cons, hcell, List.count_cons, List.count_cons]
      simp
    omega

/-- Claim C10: for a location close enough to the origin
(`x < tileWidth` or `y < tileHeight`) the visible-tile sequence repeats a
key (several margin cells clamp to index 0), so it is not duplicate-free,
and `Drawable` returns the cached tile of that key more than once in one
frame. -/
theorem near_origin_duplicates (g : TileGrid)
    (htw0 : 0 < g.tileWidth) (hth0 : 0 < g.tileHeight)
    (hhtw : 0 ≤ g.halfTileWidth) (hhth : 0 ≤ g.halfTileHeight)
    (hsw : 0 < g.screenWidth) (hsh : 0 < g.screenHeight)
    (hnear : g.location.X < g.tileWidth ∨ g.location.Y < g.tileHeight) :
    ∃ k, 2 ≤ (visibleTiles g).count k ∧
      ∀ t : PngTile, g.cache k = some t → 2 ≤ (Drawable g).count t := by
  obtain ⟨k, hk⟩ := visibleAux_dup g.location.X g.location.Y g.location.Z
    g.tileWidth g.tileHeight g.halfTileWidth g.halfTileHeight
    g.screenWidth g.screenHeight htw0 hth0 hhtw hhth hsw hsh hnear
  exact ⟨k, hk, fun t ht =>
    le_trans hk (count_le_count_filterMap g.cache k t ht (visibleTiles g))⟩

/-- Witness for C10 at the 512×512 fixture located at the origin. -/
theorem near_origin_duplicates_witness :
    ((0:ℚ) < demoGrid512.tileWidth ∧ (0:ℚ) < demoGrid512.tileHeight ∧
     (0:ℚ) ≤ demoGrid512.halfTileWidth ∧ (0:ℚ) ≤ demoGrid512.halfTileHeight ∧
     (0:ℚ) < demoGrid512.screenWidth ∧ (0:ℚ) < demoGrid512.screenHeight ∧
     (demoGrid512.location.X < demoGrid512.tileWidth ∨
      demoGrid512.location.Y < demoGrid512.tileHeight)) ∧
    ∃ k, 2 ≤ (visibleTiles demoGrid512).count k ∧
      ∀ t : PngTile, demoGrid512.cache k = some t → 2 ≤ (Drawable demoGrid512).count t :=
  ⟨⟨by norm_num [demoGrid512], by norm_num [demoGrid512], by norm_num [demoGrid512],
    by norm_num [demoGrid512], by norm_num [demoGrid512], by norm_num [demoGrid512],
    Or.inl (by norm_num [demoGrid512])⟩,
   near_origin_duplicates demoGrid512 (by norm_num [demoGrid512]) (by norm_num [demoGrid512])
     (by norm_num [demoGrid512]) (by norm_num [demoGrid512]) (by norm_num [demoGrid512])
     (by norm_num [demoGrid512]) (Or.inl (by norm_num [demoGrid512]))⟩

/-- Claim C9, counterexample: the check-then-insert of the dispatch
goroutine is a plain `Load`/`Load`/`Store`, not atomic.  Two goroutines for
the same key, interleaved check-check-store-send-store-send, both pass the
checks and the key is sent on the load channel twice while no fetch for it
has resolved. -/
theorem dispatch_race_counterexample :
    ∃ s : DispatchSys,
      Relation.ReflTransGen DStep
        ⟨∅, ∅, [], [(⟨0, 0, 6⟩, 0), (⟨0, 0, 6⟩, 0)]⟩ s ∧
      s.queue = [⟨0, 0, 6⟩, ⟨0, 0, 6⟩] := by
  refine ⟨⟨insert ⟨0, 0, 6⟩ (insert ⟨0, 0, 6⟩ ∅), ∅, [⟨0, 0, 6⟩, ⟨0, 0, 6⟩], []⟩, ?_, rfl⟩
  exact Relation.ReflTransGen.head
    (DStep.checkLoadingMiss _ [] [(⟨0, 0, 6⟩, 0)] ⟨0, 0, 6⟩ rfl (by simp))
    (Relation.ReflTransGen.head
      (DStep.checkLoadingMiss _ [(⟨0, 0, 6⟩, 1)] [] ⟨0, 0, 6⟩ rfl (by simp))
      (Relation.ReflTransGen.head
        (DStep.checkCacheMiss _ [] [(⟨0, 0, 6⟩, 1)] ⟨0, 0, 6⟩ rfl (by simp))
        (Relation.ReflTransGen.head
          (DStep.checkCacheMiss _ [(⟨0, 0, 6⟩, 2)] [] ⟨0, 0, 6⟩ rfl (by simp))
          (Relation.ReflTransGen.head
            (DStep.storeLoading _ [] [(⟨0, 0, 6⟩, 2)] ⟨0, 0, 6⟩ rfl)
            (Relation.ReflTransGen.head
              (DStep.send _ [] [(⟨0, 0, 6⟩, 2)] ⟨0, 0, 6⟩ rfl)
              (Relation.ReflTransGen.head
                (DStep.storeLoading _ [] [] ⟨0, 0, 6⟩ rfl)
                (Relation.ReflTransGen.head
                  (DStep.send _ [] [] ⟨0, 0, 6⟩ rfl)
                  Relation.ReflTransGen.refl)))))))

theorem dispatchTile_skip (g : TileGrid) (k : TileCoord)
    (h : k ∈ g.loading ∨ (g.cache k).isSome) : dispatchTile g k = g := by
  unfold dispatchTile
  rcases h with h | h
  · rw [if_pos h]
  · by_cases hl : k ∈ g.loading
    · rw [if_pos hl]
    · rw [if_neg hl, if_pos h]

theorem dispatchTile_queueInv (g : TileGrid) (k : TileCoord) (h : queueInv g) :
    queueInv (dispatchTile g k) := by
  unfold dispatchTile
  split_ifs with h1 h2
  · exact h
  · exact h
  · constructor
    · have hknq : k ∉ g.TilesToLoad := by
        intro hkq
        rcases h.2 k hkq with hc | hc
        · exact h1 hc
        · exact h2 hc
      simp [List.nodup_append, h.1, hknq]
    · intro k' hk'
      rcases List.mem_append.mp hk' with hq | hq
      · rcases h.2 k' hq with hc | hc
        · exact Or.inl (Finset.mem_insert_of_mem hc)
        · exact Or.inr hc
      · rcases List.mem_singleton.mp hq with rfl
        exact Or.inl (Finset.mem_insert_self k' g.loading)

theorem foldl_dispatchTile_queueInv (l : List TileCoord) :
    ∀ g : TileGrid, queueInv g → queueInv (l.foldl dispatchTile g) := by
  induction l with
  | nil => exact fun g h => h
  | cons a l ih => exact fun g h => ih _ (dispatchTile_queueInv g a h)

theorem SetLocation_queueInv (g : TileGrid) (l : Coord) (h : queueInv g) :
    queueInv (SetLocation g l) :=
  foldl_dispatchTile_queueInv _ _ h

theorem SetTile_queueInv (g : TileGrid) (k : TileCoord) (t : PngTile) (h : queueInv g) :
    queueInv (SetTile g k t) := by
  refine ⟨h.1, ?_⟩
  intro k' hk'
  by_cases hkk : k' = k
  · subst hkk
    refine Or.inr ?_
    show (if k' = k' then some t else g.cache k').isSome
    rw [if_pos rfl]
    rfl
  · rcases h.2 k' hk' with hc | hc
    · exact Or.inl (Finset.mem_erase.mpr ⟨hkk, hc⟩)
    · refine Or.inr ?_
      show (if k' = k then some t else g.cache k').isSome
      rw [if_neg hkk]
      exact hc

theorem CancelLoadingTiles_queueInv (g : TileGrid) : queueInv (CancelLoadingTiles g) :=
  ⟨List.nodup_nil, fun k hk => absurd hk (List.not_mem_nil k)⟩

theorem Move_queueInv (g : TileGrid) (d : Coord) (h : queueInv g) :
    queueInv (Move g d) := by
  unfold Move
  split_ifs with h1 h2
  · exact SetLocation_queueInv _ _ (CancelLoadingTiles_queueInv _)
  · exact SetLocation_queueInv _ _ (CancelLoadingTiles_queueInv _)
  · exact SetLocation_queueInv _ _ h

theorem applyOps_queueInv (ops : List GridOp) :
    ∀ g : TileGrid, queueInv g → queueInv (applyOps g ops) := by
  induction ops with
  | nil => exact fun g h => h
  | cons op ops ih =>
    intro g h
    refine ih (applyOp g op) ?_
    cases op with
    | move d => exact Move_queueInv g d h
    | setLocation l => exact SetLocation_queueInv g l h
    | setTile k t => exact SetTile_queueInv g k t h

/-- Claim C9 (amended): the per-key check-then-insert prevents duplicate
dispatch only when it runs atomically.  When the dispatch body executes as
one atomic step, a key already loading or cached is skipped outright, and
under any sequence of atomic grid operations the pending load queue never
holds a duplicate key. -/
theorem dispatch_atomic_no_duplicate (g : TileGrid) (ops : List GridOp) :
    (∀ k : TileCoord, k ∈ g.loading ∨ (g.cache k).isSome → dispatchTile g k = g) ∧
    (queueInv g → queueInv (applyOps g ops)) :=
  ⟨fun k h => dispatchTile_skip g k h, applyOps_queueInv ops g⟩

/-- Witness for C9 (amended): a key already in the loading set is skipped,
and a concrete operation sequence keeps the queue invariant. -/
theorem dispatch_atomic_no_duplicate_witness :
    (((⟨0, 0, 6⟩ : TileCoord) ∈ ({⟨0, 0, 6⟩} : Finset TileCoord) ∨
        (demoGrid512.cache ⟨0, 0, 6⟩).isSome) ∧
      dispatchTile { demoGrid512 with loading := {⟨0, 0, 6⟩} } ⟨0, 0, 6⟩ =
        { demoGrid512 with loading := {⟨0, 0, 6⟩} }) ∧
    (queueInv demoGrid512 ∧
      queueInv (applyOps demoGrid512 [.setLocation ⟨0, 0, 6⟩, .move ⟨0, 0, -1⟩])) :=
  ⟨⟨Or.inl (Finset.mem_singleton_self _),
    (dispatch_atomic_no_duplicate { demoGrid512 with loading := {⟨0, 0, 6⟩} } []).1
      ⟨0, 0, 6⟩ (Or.inl (Finset.mem_singleton_self _))⟩,
   ⟨⟨List.nodup_nil, fun k hk => absurd hk (List.not_mem_nil k)⟩,
    (dispatch_atomic_no_duplicate demoGrid512 [.setLocation ⟨0, 0, 6⟩, .move ⟨0, 0, -1⟩]).2
      ⟨List.nodup_nil, fun k hk => absurd hk (List.not_mem_nil k)⟩⟩⟩
